import Mathlib

/-!
Verification of the cursor-input subsystem of urso/packetbeat.

Shallow embedding of:
  * the v2 error model (LoaderError, ErrUnknown, IsUnknownInputError) from
    src/unnamed/part_003 (package v2, error definitions);
  * the composed runner factory from src/filebeat/input/v2/compat/composed.go;
  * the plugin Registry tree from src/unnamed/part_003 (package v2, registry);
  * the resource / states / store layer from src/unnamed/part_004
    (package exclinput);
  * the ACK handler and source-id computation from
    src/filebeat/input/v2/input-cursor/input.go.

Go conventions used throughout the embedding: a Go (value, error) return
is Except GoErr _; a plain Go error return is Option GoErr with none
standing for nil; time.Time is Nat with 0 as the zero instant; the opaque
interface values carried as cursors are Nat.
-/

namespace Packetbeat

/-! ## Error model (package v2, src/unnamed/part_003)

GoErr models the error values that flow through the loader layer: the
sentinel ErrUnknown, the LoaderError struct (whose Unwrap method returns
its Reason field; the Diagnostics field is never consulted by the code
under verification and is omitted), and opaque third-party errors. A
LoaderError with a nil Reason is the separate constructor loaderErrorNil,
so that equality stays structurally derivable. -/

inductive GoErr : Type where
  | errUnknown : GoErr
  | simple (msg : String) : GoErr
  | loaderError (name : String) (reason : GoErr) (message : String) : GoErr
  | loaderErrorNil (name : String) (message : String) : GoErr
deriving DecidableEq, Repr

/-- Unwrap method: only a LoaderError with non-nil Reason unwraps. -/
def GoErr.unwrap : GoErr → Option GoErr
  | .loaderError _ reason _ => some reason
  | _ => none

/-- sderr.Is / errors.Is: target is found on the unwrap chain of e. -/
def sderrIs (e target : GoErr) : Bool :=
  if e = target then true
  else
    match e with
    | .loaderError _ r _ => sderrIs r target
    | _ => false

/-- IsUnknownInputError from package v2: sderr.Is(err, ErrUnknown). -/
def IsUnknownInputError (e : GoErr) : Bool := sderrIs e GoErr.errUnknown

/-! ## Composed runner factory (src/filebeat/input/v2/compat/composed.go)

The composed factory is modelled by the result values that the primary
factory and the fallback factory produce on the given config; a Runner is
abstracted to a Nat. -/

abbrev Runner := Nat

/-- composeFactory.CheckConfig: if the primary CheckConfig returns nil,
return nil; otherwise return the result of the fallback CheckConfig,
whatever the primary error was. -/
def composeCheckConfig (primaryRes fallbackRes : Option GoErr) : Option GoErr :=
  match primaryRes with
  | none => none
  | some _ => fallbackRes

/-- composeFactory.Create: return the primary runner on success; otherwise
call the fallback and return its runner on success; when both fail, return
the fallback error if the primary error is ErrUnknown (sderr.Is), else the
primary error. -/
def composeCreate (primaryRes fallbackRes : Except GoErr Runner) : Except GoErr Runner :=
  match primaryRes with
  | .ok runner => .ok runner
  | .error err1 =>
    match fallbackRes with
    | .ok runner => .ok runner
    | .error err2 =>
      if IsUnknownInputError err1 then .error err2 else .error err1

end Packetbeat

namespace Packetbeat

/-- C1 (counterexample): the claim says that when the primary fails with a
non-UnknownInput error, Create returns the primary error even if the
fallback would succeed. In the code the fallback is always tried after any
primary failure and its runner is returned whenever it succeeds: with a
primary error that is not UnknownInput and a succeeding fallback, Create
returns the fallback runner, not the primary error. -/
theorem composeCreate_counterexample :
    IsUnknownInputError (GoErr.simple "invalid config") = false ∧
    composeCreate (Except.error (GoErr.simple "invalid config")) (Except.ok (7 : Nat)) =
      Except.ok (7 : Nat) ∧
    composeCreate (Except.error (GoErr.simple "invalid config")) (Except.ok (7 : Nat)) ≠
      Except.error (GoErr.simple "invalid config") := by
  refine ⟨by decide, rfl, ?_⟩
  intro h
  exact Except.noConfusion h

/-- C1 (amended): Create returns the primary runner when the primary
succeeds; when the primary fails it tries the fallback and returns the
fallback runner when the fallback succeeds, regardless of the primary
error; only when both fail does the error selection apply: the fallback
error is returned when the primary error is UnknownInput, otherwise the
primary error is returned. -/
theorem composeCreate_spec (p fb : Except GoErr Runner) :
    (∀ r, p = Except.ok r → composeCreate p fb = Except.ok r) ∧
    (∀ e1 r, p = Except.error e1 → fb = Except.ok r → composeCreate p fb = Except.ok r) ∧
    (∀ e1 e2, p = Except.error e1 → fb = Except.error e2 →
      IsUnknownInputError e1 = true → composeCreate p fb = Except.error e2) ∧
    (∀ e1 e2, p = Except.error e1 → fb = Except.error e2 →
      IsUnknownInputError e1 = false → composeCreate p fb = Except.error e1) := by
  refine ⟨?_, ?_, ?_, ?_⟩
  · intro r hp; subst hp; rfl
  · intro e1 r hp hf; subst hp; subst hf; rfl
  · intro e1 e2 hp hf hu; subst hp; subst hf; simp [composeCreate, hu]
  · intro e1 e2 hp hf hu; subst hp; subst hf; simp [composeCreate, hu]

/-- C1 witness: the amended Create spec applied at concrete inputs, one
conjunct per factory outcome shape. -/
theorem composeCreate_spec_witness :
    composeCreate (Except.ok (3 : Nat)) (Except.error GoErr.errUnknown) = Except.ok (3 : Nat) ∧
    composeCreate (Except.error (GoErr.simple "e")) (Except.ok (4 : Nat)) = Except.ok (4 : Nat) ∧
    composeCreate (Except.error GoErr.errUnknown) (Except.error (GoErr.simple "f")) =
      Except.error (GoErr.simple "f") ∧
    composeCreate (Except.error (GoErr.simple "e")) (Except.error (GoErr.simple "f")) =
      Except.error (GoErr.simple "e") :=
  ⟨(composeCreate_spec (Except.ok 3) (Except.error GoErr.errUnknown)).1 3 rfl,
   (composeCreate_spec (Except.error (GoErr.simple "e")) (Except.ok 4)).2.1 _ 4 rfl rfl,
   (composeCreate_spec (Except.error GoErr.errUnknown)
      (Except.error (GoErr.simple "f"))).2.2.1 _ _ rfl rfl (by decide),
   (composeCreate_spec (Except.error (GoErr.simple "e"))
      (Except.error (GoErr.simple "f"))).2.2.2 _ _ rfl rfl (by decide)⟩

/-- C4 (counterexample): the claim says CheckConfig consults the fallback
only when the primary fails with UnknownInput. In the code CheckConfig
falls back on every primary error: with a primary error that is not
UnknownInput and a fallback that succeeds, the composed CheckConfig
returns nil rather than the primary error. -/
theorem composeCheckConfig_counterexample :
    IsUnknownInputError (GoErr.simple "invalid config") = false ∧
    composeCheckConfig (some (GoErr.simple "invalid config")) none = none ∧
    composeCheckConfig (some (GoErr.simple "invalid config")) none ≠
      some (GoErr.simple "invalid config") := by
  refine ⟨by decide, rfl, ?_⟩
  intro h
  exact Option.noConfusion h

/-- C4 (amended): CheckConfig returns nil when the primary CheckConfig
succeeds; on any primary error it returns the fallback CheckConfig result,
irrespective of whether the primary error is UnknownInput. -/
theorem composeCheckConfig_spec (p fb : Option GoErr) :
    (p = none → composeCheckConfig p fb = none) ∧
    (∀ e, p = some e → composeCheckConfig p fb = fb) := by
  constructor
  · intro hp; subst hp; rfl
  · intro e hp; subst hp; rfl

/-- C4 witness: the amended CheckConfig spec applied at concrete inputs. -/
theorem composeCheckConfig_spec_witness :
    composeCheckConfig none (some GoErr.errUnknown) = none ∧
    composeCheckConfig (some (GoErr.simple "e")) (some (GoErr.simple "f")) =
      some (GoErr.simple "f") :=
  ⟨(composeCheckConfig_spec none (some GoErr.errUnknown)).1 rfl,
   (composeCheckConfig_spec (some (GoErr.simple "e")) (some (GoErr.simple "f"))).2 _ rfl⟩

end Packetbeat

namespace Packetbeat

/-! ## Source ids (managedInput.createSourceID,
src/filebeat/input/v2/input-cursor/input.go)

fmt.Sprintf with percent-v verbs on strings is plain concatenation. -/

/-- managedInput.createSourceID: three components joined by the double
colon when the configured user id is non-empty, two components otherwise. -/
def createSourceID (inputType userID sourceName : String) : String :=
  if userID ≠ "" then inputType ++ "::" ++ userID ++ "::" ++ sourceName
  else inputType ++ "::" ++ sourceName

/-! ## ACK handler (newInputACKHandler,
src/filebeat/input/v2/input-cursor/input.go)

The private ACK metadata attached to an event is either Go nil, a value of
some foreign type, or a pointer to an updateOp. Update operations are
abstracted to a Nat identifier; the handler result records which update
operation was executed and with which effective count (none when nothing
was executed). -/

inductive AckPrivate : Type where
  | nilEntry : AckPrivate
  | foreign (v : Nat) : AckPrivate
  | op (o : Nat) : AckPrivate
deriving DecidableEq, Repr

/-- The update operations contained in a private list, in order. -/
def opsOf : List AckPrivate → List Nat
  | [] => []
  | .op o :: rest => o :: opsOf rest
  | _ :: rest => opsOf rest

/-- The loop of newInputACKHandler: walk the private list with index i,
counting update operations in n and remembering the index of the last one
in last. -/
def ackScanAux : List AckPrivate → Nat → Nat → Nat → Nat × Nat
  | [], _, n, last => (n, last)
  | e :: rest, i, n, last =>
    match e with
    | .op _ => ackScanAux rest (i + 1) (n + 1) i
    | _ => ackScanAux rest (i + 1) n last

/-- newInputACKHandler body: scan the list; if no update operation was
seen, do nothing; otherwise execute the entry at the remembered index
(which the code asserts to be an updateOp) with n as effective count. -/
def newInputACKHandler (privList : List AckPrivate) : Option (Nat × Nat) :=
  let scanned := ackScanAux privList 0 0 0
  if scanned.1 = 0 then none
  else
    match privList[scanned.2]? with
    | some (.op o) => some (o, scanned.1)
    | _ => none

/-- Position of the last update operation in a private list, if any. -/
def lastOpPos : List AckPrivate → Option Nat
  | [] => none
  | e :: rest =>
    match lastOpPos rest with
    | some j => some (j + 1)
    | none =>
      match e with
      | .op _ => some 0
      | _ => none

theorem ackScanAux_spec (l : List AckPrivate) :
    ∀ i n last, ackScanAux l i n last =
      (n + (opsOf l).length, (lastOpPos l).elim last (fun j => i + j)) := by
  induction l with
  | nil => intro i n last; simp [ackScanAux, opsOf, lastOpPos]
  | cons e rest ih =>
    intro i n last
    cases e with
    | op o =>
      rw [show ackScanAux (.op o :: rest) i n last = ackScanAux rest (i + 1) (n + 1) i from rfl]
      rw [ih]
      rcases hr : lastOpPos rest with _ | j <;>
        simp [opsOf, lastOpPos, hr, Option.elim] <;> omega
    | nilEntry =>
      rw [show ackScanAux (.nilEntry :: rest) i n last = ackScanAux rest (i + 1) n last from rfl]
      rw [ih]
      rcases hr : lastOpPos rest with _ | j <;>
        simp [opsOf, lastOpPos, hr, Option.elim] <;> omega
    | foreign v =>
      rw [show ackScanAux (.foreign v :: rest) i n last = ackScanAux rest (i + 1) n last from rfl]
      rw [ih]
      rcases hr : lastOpPos rest with _ | j <;>
        simp [opsOf, lastOpPos, hr, Option.elim] <;> omega

theorem lastOpPos_none_iff (l : List AckPrivate) : lastOpPos l = none ↔ opsOf l = [] := by
  induction l with
  | nil => simp [lastOpPos, opsOf]
  | cons e rest ih =>
    cases e <;>
      · rcases hr : lastOpPos rest with _ | j <;>
          simp [lastOpPos, opsOf, hr] <;> simp [hr] at ih <;> simp [ih]

theorem lastOpPos_get (l : List AckPrivate) :
    ∀ j, lastOpPos l = some j →
      ∃ o, l[j]? = some (AckPrivate.op o) ∧ (opsOf l).getLast? = some o := by
  induction l with
  | nil => intro j h; exact absurd h (by simp [lastOpPos])
  | cons e rest ih =>
    intro j h
    rcases hr : lastOpPos rest with _ | j0
    · have hrest : opsOf rest = [] := (lastOpPos_none_iff rest).mp hr
      cases e with
      | op o =>
        have hj : j = 0 := by
          simp [lastOpPos, hr] at h
          omega
        subst hj
        exact ⟨o, by simp, by simp [opsOf, hrest]⟩
      | nilEntry => simp [lastOpPos, hr] at h
      | foreign v => simp [lastOpPos, hr] at h
    · have hj : j = j0 + 1 := by
        simp [lastOpPos, hr] at h
        omega
      subst hj
      obtain ⟨o, hget, hlast⟩ := ih j0 hr
      refine ⟨o, by simpa using hget, ?_⟩
      have hne : opsOf rest ≠ [] := by
        intro hnil
        rw [hnil] at hlast
        exact Option.noConfusion hlast
      obtain ⟨x, xs, hx⟩ := List.exists_cons_of_ne_nil hne
      cases e with
      | op o2 => simp [opsOf, hx] at hlast ⊢; exact hlast
      | nilEntry => simp [opsOf, hx] at hlast ⊢; exact hlast
      | foreign v => simp [opsOf, hx] at hlast ⊢; exact hlast

/-- C2: for every delivered ACK batch, nil entries and foreign entries are
ignored; if the private list holds no update operation, nothing is
executed; otherwise exactly the positionally last update operation is
executed, with the total number of update operations in the batch as its
effective count. -/
theorem newInputACKHandler_spec (privList : List AckPrivate) :
    newInputACKHandler privList =
      (opsOf privList).getLast?.map (fun o => (o, (opsOf privList).length)) := by
  unfold newInputACKHandler
  rw [ackScanAux_spec]
  rcases h : lastOpPos privList with _ | j
  · have hops : opsOf privList = [] := (lastOpPos_none_iff privList).mp h
    simp [hops, Option.elim]
  · obtain ⟨o, hget, hlast⟩ := lastOpPos_get privList j h
    have hne : opsOf privList ≠ [] := by
      intro hnil
      rw [hnil] at hlast
      exact Option.noConfusion hlast
    have hlen : (opsOf privList).length ≠ 0 := by
      simpa [List.length_eq_zero] using hne
    simp only [Option.elim, Nat.zero_add, hlast, Option.map_some]
    rw [if_neg hlen]
    simp [hget]

/-- C9: the resource key is the input type, the user id when non-empty,
and the source name, joined by double colons, with no escaping of the
components. -/
theorem createSourceID_spec (t u s : String) :
    (u ≠ "" → createSourceID t u s = t ++ "::" ++ u ++ "::" ++ s) ∧
    (u = "" → createSourceID t u s = t ++ "::" ++ s) := by
  constructor
  · intro hu; simp [createSourceID, hu]
  · intro hu; simp [createSourceID, hu]

/-- C9 witness: the key shape at concrete inputs, one conjunct per case. -/
theorem createSourceID_spec_witness :
    createSourceID "log" "u1" "f1" = "log" ++ "::" ++ "u1" ++ "::" ++ "f1" ∧
    createSourceID "log" "" "f1" = "log" ++ "::" ++ "f1" :=
  ⟨(createSourceID_spec "log" "u1" "f1").1 (by decide),
   (createSourceID_spec "log" "" "f1").2 rfl⟩

end Packetbeat

namespace Packetbeat

/-! ## Resource state and the reconciling store (package exclinput,
src/unnamed/part_004)

time.Time is a Nat with 0 as the zero instant, time.Duration an Int, and
the opaque cursor values carried via interface braces are Option Nat with
none for Go nil. The persistent-store transaction issued by one Update
call is modelled by the list of tx.Update commands it issues together
with a commit flag txOk injecting success or failure of the transaction;
the store functions return no error value, matching their Go signatures
that return nothing, and report logging through the loggedError flag. -/

structure StateInternal where
  ttl : Int
  updated : Nat
deriving DecidableEq, Repr

/-- The full registry document (Go struct state). -/
structure State where
  internal : StateInternal
  cursor : Option Nat
deriving DecidableEq, Repr

/-- The in-memory resource entry. The lock and the log handle carry no
state that the verified operations consult and are omitted; pending is the
atomic reference count. -/
structure Resource where
  pending : Nat
  stored : Bool
  internalInSync : Bool
  key : String
  state : State
deriving DecidableEq, Repr

/-- Resource.Retain: one more owner. -/
def Resource.Retain (r : Resource) : Resource := { r with pending := r.pending + 1 }

/-- Resource.Release: one owner less. -/
def Resource.Release (r : Resource) : Resource := { r with pending := r.pending - 1 }

/-- The partial-update shapes written through tx.Update:
registryStateUpdateInternal carries a full internal section,
registryStateUpdateCursor carries only the updated timestamp and the
cursor value. -/
inductive WriteCmd : Type where
  | internalUpd (internal : StateInternal) : WriteCmd
  | cursorUpd (updated : Nat) (cursor : Option Nat) : WriteCmd
deriving DecidableEq, Repr

/-- Outcome of one store Update call: the tx.Update commands issued inside
the single transaction, the resource as left behind, and whether an error
was logged. -/
structure UpdateOutcome where
  writes : List (String × WriteCmd)
  res : Resource
  loggedError : Bool
deriving DecidableEq, Repr

/-- store.UpdateInternal: copy the internal section, substituting now for
a zero updated timestamp on the copy only; issue one
registryStateUpdateInternal write in one transaction; on success set
stored and internalInSync, on failure clear internalInSync and log. -/
def storeUpdateInternal (r : Resource) (now : Nat) (txOk : Bool) : UpdateOutcome :=
  let data := r.state.internal
  let data := if data.updated = 0 then { data with updated := now } else data
  if txOk then
    { writes := [(r.key, .internalUpd data)]
      res := { r with stored := true, internalInSync := true }
      loggedError := false }
  else
    { writes := [(r.key, .internalUpd data)]
      res := { r with internalInSync := false }
      loggedError := true }

/-- store.UpdateCursor: inside one transaction, first flush the current
internal snapshot when internalInSync is false, then write the cursor
update; on success set both flags, on failure log and leave the resource
untouched. -/
def storeUpdateCursor (r : Resource) (ts : Nat) (updates : Option Nat) (txOk : Bool) :
    UpdateOutcome :=
  let updateCommand := WriteCmd.cursorUpd ts updates
  let writes :=
    (if r.internalInSync then [] else [(r.key, WriteCmd.internalUpd r.state.internal)]) ++
      [(r.key, updateCommand)]
  if txOk then
    { writes := writes
      res := { r with internalInSync := true, stored := true }
      loggedError := false }
  else
    { writes := writes
      res := r
      loggedError := true }

/-- C3: when internalInSync is false at call time, the single transaction
issued by UpdateCursor writes the InternalUpdate of the current internal
snapshot first and the cursor update second; on transaction success both
flags become true; on failure the error is only logged (UpdateCursor
returns no error value by construction of its Go signature). -/
theorem storeUpdateCursor_spec (r : Resource) (ts : Nat) (updates : Option Nat) (txOk : Bool) :
    (r.internalInSync = false →
      (storeUpdateCursor r ts updates txOk).writes =
        [(r.key, WriteCmd.internalUpd r.state.internal),
         (r.key, WriteCmd.cursorUpd ts updates)]) ∧
    (r.internalInSync = true →
      (storeUpdateCursor r ts updates txOk).writes =
        [(r.key, WriteCmd.cursorUpd ts updates)]) ∧
    (txOk = true →
      (storeUpdateCursor r ts updates txOk).res.internalInSync = true ∧
      (storeUpdateCursor r ts updates txOk).res.stored = true) ∧
    (txOk = false →
      (storeUpdateCursor r ts updates txOk).loggedError = true ∧
      (storeUpdateCursor r ts updates txOk).res = r) := by
  refine ⟨?_, ?_, ?_, ?_⟩
  · intro hs; cases txOk <;> simp [storeUpdateCursor, hs]
  · intro hs; cases txOk <;> simp [storeUpdateCursor, hs]
  · intro ht; subst ht; simp [storeUpdateCursor]
  · intro ht; subst ht; simp [storeUpdateCursor]

/-- C3 witness: the UpdateCursor spec applied to a concrete out-of-sync
resource, with a committing and with a failing transaction. -/
theorem storeUpdateCursor_spec_witness :
    (storeUpdateCursor
        { pending := 1, stored := true, internalInSync := false, key := "log::f1",
          state := { internal := { ttl := 10, updated := 5 }, cursor := some 20 } }
        6 (some 30) true).writes =
      [("log::f1", WriteCmd.internalUpd { ttl := 10, updated := 5 }),
       ("log::f1", WriteCmd.cursorUpd 6 (some 30))] ∧
    (storeUpdateCursor
        { pending := 1, stored := true, internalInSync := false, key := "log::f1",
          state := { internal := { ttl := 10, updated := 5 }, cursor := some 20 } }
        6 (some 30) true).res.internalInSync = true ∧
    (storeUpdateCursor
        { pending := 1, stored := true, internalInSync := false, key := "log::f1",
          state := { internal := { ttl := 10, updated := 5 }, cursor := some 20 } }
        6 (some 30) false).loggedError = true ∧
    (storeUpdateCursor
        { pending := 1, stored := true, internalInSync := true, key := "log::f1",
          state := { internal := { ttl := 10, updated := 5 }, cursor := some 20 } }
        6 (some 30) true).writes =
      [("log::f1", WriteCmd.cursorUpd 6 (some 30))] :=
  ⟨(storeUpdateCursor_spec _ 6 (some 30) true).1 rfl,
   ((storeUpdateCursor_spec _ 6 (some 30) true).2.2.1 rfl).1,
   ((storeUpdateCursor_spec _ 6 (some 30) false).2.2.2 rfl).1,
   (storeUpdateCursor_spec _ 6 (some 30) true).2.1 rfl⟩

/-- C5: UpdateInternal writes exactly the InternalUpdate shape holding the
internal fields of the resource, with the updated timestamp replaced by
now exactly when it is the zero instant; on success both stored and
internalInSync become true, on failure internalInSync becomes false and
the error is only logged (UpdateInternal returns no error value by
construction of its Go signature). -/
theorem storeUpdateInternal_spec (r : Resource) (now : Nat) (txOk : Bool) :
    (storeUpdateInternal r now txOk).writes =
      [(r.key, WriteCmd.internalUpd
        { r.state.internal with
            updated := if r.state.internal.updated = 0 then now
                       else r.state.internal.updated })] ∧
    (txOk = true →
      (storeUpdateInternal r now txOk).res.stored = true ∧
      (storeUpdateInternal r now txOk).res.internalInSync = true ∧
      (storeUpdateInternal r now txOk).loggedError = false) ∧
    (txOk = false →
      (storeUpdateInternal r now txOk).res.internalInSync = false ∧
      (storeUpdateInternal r now txOk).loggedError = true) := by
  obtain ⟨p, st, sy, k, ⟨⟨ttl0, upd0⟩, cur0⟩⟩ := r
  refine ⟨?_, ?_, ?_⟩
  · cases txOk <;> rcases upd0 with _ | u <;> simp [storeUpdateInternal]
  · intro ht; subst ht; simp [storeUpdateInternal]
  · intro ht; subst ht; simp [storeUpdateInternal]

/-- C5 witness: the UpdateInternal spec at a concrete resource whose
updated timestamp is zero, under a committing and under a failing
transaction. -/
theorem storeUpdateInternal_spec_witness :
    (storeUpdateInternal
        { pending := 1, stored := false, internalInSync := false, key := "log::f1",
          state := { internal := { ttl := 10, updated := 0 }, cursor := none } }
        7 true).writes =
      [("log::f1", WriteCmd.internalUpd { ttl := 10, updated := 7 })] ∧
    (storeUpdateInternal
        { pending := 1, stored := false, internalInSync := false, key := "log::f1",
          state := { internal := { ttl := 10, updated := 0 }, cursor := none } }
        7 true).res.stored = true ∧
    (storeUpdateInternal
        { pending := 1, stored := false, internalInSync := false, key := "log::f1",
          state := { internal := { ttl := 10, updated := 0 }, cursor := none } }
        7 false).res.internalInSync = false :=
  ⟨by
    have h := (storeUpdateInternal_spec
      { pending := 1, stored := false, internalInSync := false, key := "log::f1",
        state := { internal := { ttl := 10, updated := 0 }, cursor := none } } 7 true).1
    simpa using h,
   ((storeUpdateInternal_spec _ 7 true).2.1 rfl).1,
   ((storeUpdateInternal_spec _ 7 false).2.2 rfl).1⟩

/-- C10: UpdateInternal never touches the in-memory state of the resource:
for both transaction outcomes the state (internal fields, updated
timestamp, TTL and cursor), the key and the pending count are unchanged;
the now-substitution happens only on the copy carried by the write
command. -/
theorem storeUpdateInternal_frame (r : Resource) (now : Nat) (txOk : Bool) :
    (storeUpdateInternal r now txOk).res.state = r.state ∧
    (storeUpdateInternal r now txOk).res.state.internal.updated = r.state.internal.updated ∧
    (storeUpdateInternal r now txOk).res.state.internal.ttl = r.state.internal.ttl ∧
    (storeUpdateInternal r now txOk).res.state.cursor = r.state.cursor ∧
    (storeUpdateInternal r now txOk).res.key = r.key ∧
    (storeUpdateInternal r now txOk).res.pending = r.pending := by
  cases txOk <;> simp [storeUpdateInternal]

/-! ## In-memory state table (states.Find, src/unnamed/part_004)

The Go table is a map from keys to resource pointers; it is modelled as an
association list looked up by first match. Retain mutates the pointed-to
resource in place, so the functional model updates the table entry
alongside the returned resource. -/

structure States where
  table : List (String × Resource)
deriving DecidableEq, Repr

/-- The fresh resource composed by states.Find before the retain: stored
false, zero-valued state (nil cursor), zero pending. -/
def newResource (key : String) : Resource :=
  { pending := 0, stored := false, internalInSync := false, key := key,
    state := { internal := { ttl := 0, updated := 0 }, cursor := none } }

/-- In-place mutation of the entry the table already holds for a key. -/
def replaceEntry : List (String × Resource) → String → Resource → List (String × Resource)
  | [], _, _ => []
  | (k, v) :: rest, key, r =>
    if k == key then (k, r) :: rest else (k, v) :: replaceEntry rest key r

/-- states.Find: an existing entry is retained and returned; a missing key
with create true yields a fresh retained resource inserted into the table;
a missing key with create false yields Go nil and no table change. -/
def States.Find (s : States) (key : String) (create : Bool) : Option Resource × States :=
  match s.table.lookup key with
  | some r => (some r.Retain, ⟨replaceEntry s.table key r.Retain⟩)
  | none =>
    if create then
      let r := (newResource key).Retain
      (some r, ⟨s.table ++ [(key, r)]⟩)
    else (none, s)

theorem lookup_append_single (l : List (String × Resource)) (k : String) (r : Resource)
    (h : l.lookup k = none) : (l ++ [(k, r)]).lookup k = some r := by
  induction l with
  | nil => simp [List.lookup]
  | cons e rest ih =>
    obtain ⟨k0, v0⟩ := e
    cases hk : (k == k0) with
    | true =>
      simp only [List.lookup, hk] at h
      exact Option.noConfusion h
    | false =>
      simp only [List.cons_append, List.lookup, hk] at h ⊢
      exact ih h

/-- C6: Find under the table mutex returns the existing resource with its
pending count incremented when the key is present (the table keeping the
same mutated entry); on a missing key with create true it returns a fresh
resource with stored false, nil cursor and pending one, inserted into the
table; on a missing key with create false it returns Go nil and leaves the
table unchanged. -/
theorem states_Find_spec (s : States) (key : String) (create : Bool) :
    (∀ r, s.table.lookup key = some r →
      States.Find s key create =
        (some r.Retain, ⟨replaceEntry s.table key r.Retain⟩) ∧
      r.Retain.pending = r.pending + 1) ∧
    (s.table.lookup key = none → create = true →
      States.Find s key create =
        (some (newResource key).Retain, ⟨s.table ++ [(key, (newResource key).Retain)]⟩) ∧
      (newResource key).Retain.pending = 1 ∧
      (newResource key).Retain.stored = false ∧
      (newResource key).Retain.state.cursor = none ∧
      (s.table ++ [(key, (newResource key).Retain)]).lookup key =
        some (newResource key).Retain) ∧
    (s.table.lookup key = none → create = false →
      States.Find s key create = (none, s)) := by
  refine ⟨?_, ?_, ?_⟩
  · intro r hr
    exact ⟨by simp [States.Find, hr], rfl⟩
  · intro hnone hc
    subst hc
    refine ⟨by simp [States.Find, hnone], rfl, rfl, rfl, ?_⟩
    exact lookup_append_single s.table key _ hnone
  · intro hnone hc
    subst hc
    simp [States.Find, hnone]

/-- C6 witness: Find on a concrete table, covering the present-key case,
the absent-key create case, and the absent-key non-create case. -/
theorem states_Find_spec_witness :
    States.Find ⟨[("k", newResource "k")]⟩ "k" false =
      (some (newResource "k").Retain,
       ⟨[("k", (newResource "k").Retain)]⟩) ∧
    States.Find ⟨[]⟩ "log::f1" true =
      (some (newResource "log::f1").Retain,
       ⟨[("log::f1", (newResource "log::f1").Retain)]⟩) ∧
    (newResource "log::f1").Retain.pending = 1 ∧
    States.Find ⟨[]⟩ "log::f1" false = (none, ⟨[]⟩) :=
  ⟨((states_Find_spec ⟨[("k", newResource "k")]⟩ "k" false).1 (newResource "k") rfl).1,
   ((states_Find_spec ⟨[]⟩ "log::f1" true).2.1 rfl rfl).1,
   ((states_Find_spec ⟨[]⟩ "log::f1" true).2.1 rfl rfl).2.1,
   (states_Find_spec ⟨[]⟩ "log::f1" false).2.2 rfl rfl⟩

end Packetbeat

namespace Packetbeat

/-! ## Plugin registry (package v2, src/unnamed/part_003)

A Plugin is registered in a Registry under its name; the descriptor fields
other than the name are never consulted by Find or Each and are collapsed
into a numeric payload. The Go plugins map is modelled as a list of
plugins looked up by first name match, the list standing for one
enumeration of the map; a sub-registry forest keeps insertion order. -/

structure Plugin where
  name : String
  info : Nat
deriving DecidableEq, Repr

mutual
inductive Registry : Type where
  | mk (plugins : List Plugin) (subs : RegistryForest) : Registry
inductive RegistryForest : Type where
  | nil : RegistryForest
  | cons (hd : Registry) (tl : RegistryForest) : RegistryForest
end

def Registry.plugins : Registry → List Plugin
  | .mk ps _ => ps

def Registry.subs : Registry → RegistryForest
  | .mk _ ss => ss

mutual
/-- Registry.find: map lookup on the direct plugins, then the children in
insertion order. -/
def Registry.findP : Registry → String → Option Plugin
  | .mk ps subs, sname =>
    match ps.find? (fun p => p.name == sname) with
    | some p => some p
    | none => RegistryForest.findP subs sname

def RegistryForest.findP : RegistryForest → String → Option Plugin
  | .nil, _ => none
  | .cons hd tl, sname =>
    match Registry.findP hd sname with
    | some p => some p
    | none => RegistryForest.findP tl sname
end

/-- Registry.Find: the lowercase find, wrapping a miss into a LoaderError
with the queried name and the ErrUnknown reason. -/
def Registry.FindE (r : Registry) (sname : String) : Except GoErr Plugin :=
  match Registry.findP r sname with
  | some p => .ok p
  | none => .error (.loaderError sname .errUnknown "")

mutual
/-- The plugins reachable from a registry in traversal order: direct
plugins first, then the children in insertion order, recursively. -/
def Registry.visitOrder : Registry → List Plugin
  | .mk ps subs => ps ++ RegistryForest.visitOrder subs

def RegistryForest.visitOrder : RegistryForest → List Plugin
  | .nil => []
  | .cons hd tl => Registry.visitOrder hd ++ RegistryForest.visitOrder tl
end

/-- The direct-plugin loop of Registry.each, instrumented with the list of
plugins the callback was invoked on; the Bool is the continue flag. -/
def pluginsVisit : List Plugin → (Plugin → Bool) → List Plugin × Bool
  | [], _ => ([], true)
  | p :: ps, fn =>
    if fn p then
      let rest := pluginsVisit ps fn
      (p :: rest.1, rest.2)
    else ([p], false)

mutual
/-- Registry.each, instrumented with the visit sequence. -/
def Registry.eachVisit : Registry → (Plugin → Bool) → List Plugin × Bool
  | .mk ps subs, fn =>
    let first := pluginsVisit ps fn
    if first.2 then
      let rest := RegistryForest.eachVisit subs fn
      (first.1 ++ rest.1, rest.2)
    else (first.1, false)

def RegistryForest.eachVisit : RegistryForest → (Plugin → Bool) → List Plugin × Bool
  | .nil, _ => ([], true)
  | .cons hd tl, fn =>
    let first := Registry.eachVisit hd fn
    if first.2 then
      let rest := RegistryForest.eachVisit tl fn
      (first.1 ++ rest.1, rest.2)
    else (first.1, false)
end

/-- The longest run of callback invocations: every plugin up to and
including the first one on which the callback yields false. -/
def takeUntilFalse (fn : Plugin → Bool) : List Plugin → List Plugin
  | [] => []
  | p :: ps => if fn p then p :: takeUntilFalse fn ps else [p]

theorem pluginsVisit_spec (fn : Plugin → Bool) :
    ∀ l, pluginsVisit l fn = (takeUntilFalse fn l, l.all fn) := by
  intro l
  induction l with
  | nil => simp [pluginsVisit, takeUntilFalse]
  | cons p ps ih =>
    cases hp : fn p <;> simp [pluginsVisit, takeUntilFalse, hp, ih]

theorem takeUntilFalse_append (fn : Plugin → Bool) (a b : List Plugin) :
    takeUntilFalse fn (a ++ b) =
      if a.all fn then takeUntilFalse fn a ++ takeUntilFalse fn b
      else takeUntilFalse fn a := by
  induction a with
  | nil => simp [takeUntilFalse]
  | cons p ps ih =>
    cases hp : fn p with
    | false => simp [takeUntilFalse, hp]
    | true => cases ha : ps.all fn <;> simp [takeUntilFalse, hp, ih, ha]

mutual
theorem regEachVisit_eq (r : Registry) (fn : Plugin → Bool) :
    Registry.eachVisit r fn =
      (takeUntilFalse fn (Registry.visitOrder r), (Registry.visitOrder r).all fn) := by
  match r with
  | .mk ps subs =>
    have hsub := forestEachVisit_eq subs fn
    cases ha : ps.all fn with
    | true =>
      simp [Registry.eachVisit, Registry.visitOrder, pluginsVisit_spec, hsub, ha,
        takeUntilFalse_append, List.all_append]
    | false =>
      simp [Registry.eachVisit, Registry.visitOrder, pluginsVisit_spec, hsub, ha,
        takeUntilFalse_append, List.all_append]

theorem forestEachVisit_eq (f : RegistryForest) (fn : Plugin → Bool) :
    RegistryForest.eachVisit f fn =
      (takeUntilFalse fn (RegistryForest.visitOrder f),
       (RegistryForest.visitOrder f).all fn) := by
  match f with
  | .nil => simp [RegistryForest.eachVisit, RegistryForest.visitOrder, takeUntilFalse]
  | .cons hd tl =>
    have h1 := regEachVisit_eq hd fn
    have h2 := forestEachVisit_eq tl fn
    cases ha : (Registry.visitOrder hd).all fn with
    | true =>
      simp [RegistryForest.eachVisit, RegistryForest.visitOrder, h1, h2, ha,
        takeUntilFalse_append, List.all_append]
    | false =>
      simp [RegistryForest.eachVisit, RegistryForest.visitOrder, h1, h2, ha,
        takeUntilFalse_append, List.all_append]
end

mutual
theorem regFindP_eq (r : Registry) (sname : String) :
    Registry.findP r sname = (Registry.visitOrder r).find? (fun p => p.name == sname) := by
  match r with
  | .mk ps subs =>
    have hsub := forestFindP_eq subs sname
    cases hf : ps.find? (fun p => p.name == sname) with
    | some p => simp [Registry.findP, Registry.visitOrder, List.find?_append, hf]
    | none => simp [Registry.findP, Registry.visitOrder, List.find?_append, hf, hsub]

theorem forestFindP_eq (f : RegistryForest) (sname : String) :
    RegistryForest.findP f sname =
      (RegistryForest.visitOrder f).find? (fun p => p.name == sname) := by
  match f with
  | .nil => simp [RegistryForest.findP, RegistryForest.visitOrder]
  | .cons hd tl =>
    have h1 := regFindP_eq hd sname
    have h2 := forestFindP_eq tl sname
    cases hf : Registry.findP hd sname with
    | some p => simp [RegistryForest.findP, RegistryForest.visitOrder, List.find?_append,
        hf, ← h1]
    | none => simp [RegistryForest.findP, RegistryForest.visitOrder, List.find?_append,
        hf, h2, ← h1]
end

theorem isUnknownInputError_loaderError (n m : String) (r : GoErr) :
    IsUnknownInputError (GoErr.loaderError n r m) = IsUnknownInputError r := by
  unfold IsUnknownInputError
  rw [sderrIs.eq_def]
  simp

/-- C7: Registry.Find resolves a name to the first plugin matching it in
traversal order, direct plugins first and then the children recursively in
insertion order; when the reachable tree holds no plugin of that name it
returns a LoaderError carrying the queried name with the ErrUnknown
reason, for which IsUnknownInputError holds. -/
theorem Registry_Find_spec (r : Registry) (sname : String) :
    Registry.findP r sname = (Registry.visitOrder r).find? (fun p => p.name == sname) ∧
    (Registry.findP r sname = none →
      Registry.FindE r sname = Except.error (GoErr.loaderError sname GoErr.errUnknown "") ∧
      IsUnknownInputError (GoErr.loaderError sname GoErr.errUnknown "") = true) := by
  refine ⟨regFindP_eq r sname, ?_⟩
  intro h
  refine ⟨by simp [Registry.FindE, h], ?_⟩
  rw [isUnknownInputError_loaderError]
  decide

/-- C7 witness: Find on an empty registry tree misses and produces the
UnknownInput LoaderError. -/
theorem Registry_Find_spec_witness :
    Registry.FindE (Registry.mk [] RegistryForest.nil) "nope" =
      Except.error (GoErr.loaderError "nope" GoErr.errUnknown "") ∧
    IsUnknownInputError (GoErr.loaderError "nope" GoErr.errUnknown "") = true :=
  (Registry_Find_spec (Registry.mk [] RegistryForest.nil) "nope").2
    (by simp [Registry.findP, RegistryForest.findP])

/-- C8 (counterexample): the claim says two invocations of Each on the
same registry visit plugins in the same sequence. The direct plugins live
in a Go map whose iteration order is unspecified and varies between
invocations; two enumerations of one and the same plugin map (a
permutation, here with identical sub-registries) yield different visit
sequences, so the sequence is not determined by the registry content. -/
theorem Registry_Each_counterexample :
    (Registry.mk [⟨"a", 0⟩, ⟨"b", 1⟩] RegistryForest.nil).plugins.Perm
      (Registry.mk [⟨"b", 1⟩, ⟨"a", 0⟩] RegistryForest.nil).plugins ∧
    (Registry.mk [⟨"a", 0⟩, ⟨"b", 1⟩] RegistryForest.nil).subs =
      (Registry.mk [⟨"b", 1⟩, ⟨"a", 0⟩] RegistryForest.nil).subs ∧
    (Registry.eachVisit (Registry.mk [⟨"a", 0⟩, ⟨"b", 1⟩] RegistryForest.nil)
        (fun _ => true)).1 ≠
      (Registry.eachVisit (Registry.mk [⟨"b", 1⟩, ⟨"a", 0⟩] RegistryForest.nil)
        (fun _ => true)).1 := by
  refine ⟨?_, rfl, ?_⟩
  · simp only [Registry.plugins]
    exact List.Perm.swap (⟨"b", 1⟩ : Plugin) (⟨"a", 0⟩ : Plugin) []
  have e1 : (Registry.eachVisit (Registry.mk [⟨"a", 0⟩, ⟨"b", 1⟩] RegistryForest.nil)
      (fun _ => true)).1 = [⟨"a", 0⟩, ⟨"b", 1⟩] := by
    simp [Registry.eachVisit, RegistryForest.eachVisit, pluginsVisit]
  have e2 : (Registry.eachVisit (Registry.mk [⟨"b", 1⟩, ⟨"a", 0⟩] RegistryForest.nil)
      (fun _ => true)).1 = [⟨"b", 1⟩, ⟨"a", 0⟩] := by
    simp [Registry.eachVisit, RegistryForest.eachVisit, pluginsVisit]
  rw [e1, e2]
  decide

/-- C8 (amended): Each visits, for the enumeration the map iteration
produces, the direct plugins first and then the plugins of each child
registry recursively in insertion order, stopping with the first plugin on
which the callback returns false; the relative order among the direct
plugins of one registry is the unspecified map order rather than a
sequence determined by the registry content. -/
theorem Registry_Each_spec (r : Registry) (fn : Plugin → Bool) :
    Registry.eachVisit r fn =
      (takeUntilFalse fn (Registry.visitOrder r), (Registry.visitOrder r).all fn) :=
  regEachVisit_eq r fn

end Packetbeat



